import Mathlib

/-!
Shallow embedding of the recipe fetch pipeline of this repository
(`supabase/functions/fetch-recipe/index.ts` plus the SQL schema that
declares the unique keys of the `recipe_cache` and `recipes` tables).

Modelling conventions:
  * JavaScript strings are Lean `String`; `toLowerCase`/`trim` are modelled
    by `jsToLower`/`jsTrim` below (character-wise lowering, and dropping
    leading/trailing whitespace).
  * Timestamps are `Nat` milliseconds; the ISO-string comparison
    `.gt('expires_at', now)` is the strict `<` on those numbers, and
    `setHours(getHours() + 24)` is `now + msPerDay`.
  * JSON numbers are `ℚ` (the rationals); a nullable/optional JSON field is
    `Option`.
  * Each upstream HTTP endpoint is an oracle function in a `*Upstream`
    structure; a transport failure or an unparseable body is an
    `Except.error` carrying the thrown message.  Adapters return the list
    of network calls they performed, so that claims of the form
    "no network attempt is made" are expressible.
  * `supabase-.upsert` against a table whose schema declares a UNIQUE key
    (see `src/unnamed/part_001`: `UNIQUE(search_query, api_source)` on
    `recipe_cache`, `UNIQUE(external_id, api_source)` on `recipes`) is
    modelled as replace-by-that-key, as the spec's cache/repository
    contracts state.
-/

deriving instance DecidableEq for Except

/-- JavaScript `String.prototype.toLowerCase`, modelled character-wise. -/
def jsToLower (s : String) : String := ⟨s.data.map Char.toLower⟩

/-- Dropping leading and trailing whitespace from a character list. -/
def trimCharList (l : List Char) : List Char :=
  ((l.dropWhile Char.isWhitespace).reverse.dropWhile Char.isWhitespace).reverse

/-- JavaScript `String.prototype.trim`, modelled on the character list. -/
def jsTrim (s : String) : String := ⟨trimCharList s.data⟩

/-- Amounts disagree across sources: Spoonacular and Edamam provide numbers,
TheMealDB provides free-text measures. -/
inductive Amount where
  | num (q : ℚ)
  | str (s : String)
deriving DecidableEq, Repr

/-- Normalized ingredient, the common shape all three adapters produce. -/
structure Ingredient where
  name : String
  amount : Amount
  unit : String
  originalString : String
deriving DecidableEq, Repr

/-- Normalized instruction step. -/
structure InstructionStep where
  number : ℕ
  step : String
deriving DecidableEq, Repr

/-- Normalized recipe, the common internal shape (`id` is kept as the string
form used when persisting; the opaque nutrition payload is an uninterpreted
string). -/
structure Recipe where
  id : String
  title : String
  image : Option String
  readyInMinutes : Option ℤ
  servings : Option ℚ
  ingredients : List Ingredient
  instructions : List InstructionStep
  nutrition : Option String
deriving DecidableEq, Repr

/-- A network call an adapter performs, identified by endpoint and query. -/
inductive NetCall where
  | spoonacularSearch (q : String)
  | spoonacularDetail (id : ℤ)
  | edamamSearch (q : String)
  | mealdbSearch (q : String)
deriving DecidableEq, Repr

/-- Result of running one adapter: the recipe or the thrown error message,
together with the network calls that were made. -/
structure AdapterResult where
  result : Except String Recipe
  calls : List NetCall
deriving DecidableEq, Repr

/-- The environment credentials the function reads (`Deno.env.get`). -/
structure Env where
  spoonacularApiKey : Option String
  edamamAppId : Option String
  edamamAppKey : Option String

/- ---------------------------------------------------------------------
TheMealDB adapter (`fetchFromTheMealDB`, index.ts lines 184-225).
--------------------------------------------------------------------- -/

/-- One record of TheMealDB search response; the twenty numbered
`strIngredientN` / `strMeasureN` fields are modelled as functions from the
index, `none` standing for a null/absent field. -/
structure Meal where
  idMeal : String
  strMeal : String
  strMealThumb : Option String
  strInstructions : Option String
  strIngredient : ℕ → Option String
  strMeasure : ℕ → Option String

/-- Body of TheMealDB search response. -/
structure MealDBResponse where
  meals : Option (List Meal)

/-- TheMealDB upstream oracle: the search endpoint; `Except.error` is a
transport/parse failure. -/
structure MealDBUpstream where
  search : String → Except String MealDBResponse

/-- The record lines 203-208 push for slot `i`: trimmed name, the trimmed
measure when the measure is truthy (else the empty string), empty unit, and
`trim(measure-or-empty ++ " " ++ ingredient)`. -/
def mealIngredientAt (meal : Meal) (i : ℕ) : Ingredient :=
  let ingredient := (meal.strIngredient i).getD ""
  { name := jsTrim ingredient
    amount := .str ((meal.strMeasure i).elim "" fun m => if m = "" then "" else jsTrim m)
    unit := ""
    originalString := jsTrim (((meal.strMeasure i).elim "" fun m => if m = "" then "" else m) ++ " " ++ ingredient) }

/-- The ingredient scan of `fetchFromTheMealDB` (lines 197-210): for `i` in
1..20, if `meal[strIngredient i]` is truthy and its trim is truthy, push the
slot record. -/
def parseMealIngredients (meal : Meal) : List Ingredient :=
  (List.range 20).filterMap fun j =>
    let i := j + 1
    match meal.strIngredient i with
    | none => none
    | some ingredient =>
      if ingredient ≠ "" ∧ jsTrim ingredient ≠ "" then some (mealIngredientAt meal i)
      else none

/-- The free-source adapter `fetchFromTheMealDB`: one search call, take the
first meal, scan the 20 ingredient slots, wrap `strInstructions` as a single
step numbered 1 when truthy. -/
def fetchFromTheMealDB (up : MealDBUpstream) (dishName : String) : AdapterResult :=
  let calls := [NetCall.mealdbSearch dishName]
  match up.search dishName with
  | .error e => ⟨.error e, calls⟩
  | .ok data =>
    match data.meals with
    | none => ⟨.error "No recipes found", calls⟩
    | some [] => ⟨.error "No recipes found", calls⟩
    | some (meal :: _) =>
      ⟨.ok { id := meal.idMeal
             title := meal.strMeal
             image := meal.strMealThumb
             readyInMinutes := none
             servings := none
             ingredients := parseMealIngredients meal
             instructions :=
               match meal.strInstructions with
               | none => []
               | some s => if s = "" then [] else [{ number := 1, step := s }]
             nutrition := none }, calls⟩

/- ---------------------------------------------------------------------
Spoonacular adapter (`fetchFromSpoonacular`, index.ts lines 105-146).
--------------------------------------------------------------------- -/

/-- JavaScript truthiness of a possibly-absent environment string:
`undefined` and the empty string are falsy. -/
def isTruthy (o : Option String) : Bool :=
  match o with
  | none => false
  | some s => s ≠ ""

/-- One candidate of the Spoonacular complexSearch response (only its `id`
is read by the code). -/
structure SpoonStub where
  id : ℤ

/-- Body of the Spoonacular complexSearch response. -/
structure SpoonSearchResponse where
  results : Option (List SpoonStub)

/-- One entry of `extendedIngredients` in the Spoonacular detail response. -/
structure SpoonIngredientRec where
  name : String
  amount : ℚ
  unit : String
  original : String

/-- One step inside an `analyzedInstructions` block. -/
structure SpoonStepRec where
  number : ℕ
  step : String

/-- One `analyzedInstructions` block. -/
structure SpoonInstructionBlock where
  steps : Option (List SpoonStepRec)

/-- Body of the Spoonacular detail (information) response. -/
structure SpoonDetail where
  id : ℤ
  title : String
  image : Option String
  readyInMinutes : Option ℤ
  servings : Option ℚ
  extendedIngredients : Option (List SpoonIngredientRec)
  analyzedInstructions : Option (List SpoonInstructionBlock)
  nutrition : Option String

/-- Spoonacular upstream oracle: the search and detail endpoints. -/
structure SpoonacularUpstream where
  search : String → Except String SpoonSearchResponse
  detail : ℤ → Except String SpoonDetail

/-- The premium-source adapter `fetchFromSpoonacular`: credential check, one
search call using only the first result, then one detail call. -/
def fetchFromSpoonacular (env : Env) (up : SpoonacularUpstream)
    (dishName : String) : AdapterResult :=
  if !(isTruthy env.spoonacularApiKey) then
    ⟨.error "Spoonacular API key not configured", []⟩
  else
    let calls1 := [NetCall.spoonacularSearch dishName]
    match up.search dishName with
    | .error e => ⟨.error e, calls1⟩
    | .ok searchData =>
      match searchData.results with
      | none => ⟨.error "No recipes found", calls1⟩
      | some [] => ⟨.error "No recipes found", calls1⟩
      | some (stub :: _) =>
        let calls2 := calls1 ++ [NetCall.spoonacularDetail stub.id]
        match up.detail stub.id with
        | .error e => ⟨.error e, calls2⟩
        | .ok d =>
          ⟨.ok { id := toString d.id
                 title := d.title
                 image := d.image
                 readyInMinutes := d.readyInMinutes
                 servings := d.servings
                 ingredients := (d.extendedIngredients.getD []).map fun ing =>
                   { name := ing.name, amount := .num ing.amount,
                     unit := ing.unit, originalString := ing.original }
                 instructions :=
                   match d.analyzedInstructions with
                   | none => []
                   | some [] => []
                   | some (blk :: _) =>
                     match blk.steps with
                     | none => []
                     | some steps => steps.map fun s => { number := s.number, step := s.step }
                 nutrition := d.nutrition }, calls2⟩

/- ---------------------------------------------------------------------
Edamam adapter (`fetchFromEdamam`, index.ts lines 148-182).
--------------------------------------------------------------------- -/

/-- Splitting a character list on one separator character, mirroring
JavaScript `split` with a single-character separator. -/
def splitOnChar (c : Char) : List Char → List (List Char)
  | [] => [[]]
  | x :: xs =>
    match splitOnChar c xs with
    | [] => if x = c then [[], [x]] else [[x]]
    | h :: t => if x = c then [] :: h :: t else (x :: h) :: t

/-- JavaScript `String.prototype.split` with a one-character separator. -/
def jsSplit (s : String) (c : Char) : List String :=
  (splitOnChar c s.data).map fun l => ⟨l⟩

/-- One ingredient of an Edamam hit; `quantity` is a nullable JSON number. -/
structure EdamamIng where
  food : String
  quantity : Option ℚ
  measure : String
  text : String

/-- The recipe object inside an Edamam hit.  The field the code reads as
`recipe.yield` is named `yieldServings` here. -/
structure EdamamRecipe where
  uri : String
  label : String
  image : Option String
  yieldServings : Option ℚ
  ingredients : Option (List EdamamIng)
  totalNutrients : Option String

/-- One hit of the Edamam search response. -/
structure EdamamHit where
  recipe : EdamamRecipe

/-- Body of the Edamam search response. -/
structure EdamamResponse where
  hits : Option (List EdamamHit)

/-- Edamam upstream oracle: the search endpoint. -/
structure EdamamUpstream where
  search : String → Except String EdamamResponse

/-- The per-ingredient mapping of `fetchFromEdamam` (lines 173-178): a falsy
`quantity` (absent, null, or 0) is replaced by the number 1. -/
def edamamIngredient (ing : EdamamIng) : Ingredient :=
  { name := ing.food
    amount :=
      match ing.quantity with
      | none => .num 1
      | some q => if q = 0 then .num 1 else .num q
    unit := ing.measure
    originalString := ing.text }

/-- The nutrition-source adapter `fetchFromEdamam`: credential check, one
search call using only the first hit; instructions are always empty.  A
JavaScript out-of-range index `split('_')[1]` is modelled as the empty
string. -/
def fetchFromEdamam (env : Env) (up : EdamamUpstream)
    (dishName : String) : AdapterResult :=
  if !(isTruthy env.edamamAppId) || !(isTruthy env.edamamAppKey) then
    ⟨.error "Edamam API credentials not configured", []⟩
  else
    let calls := [NetCall.edamamSearch dishName]
    match up.search dishName with
    | .error e => ⟨.error e, calls⟩
    | .ok data =>
      match data.hits with
      | none => ⟨.error "No recipes found", calls⟩
      | some [] => ⟨.error "No recipes found", calls⟩
      | some (hit :: _) =>
        let recipe := hit.recipe
        ⟨.ok { id := (jsSplit recipe.uri '_').getD 1 ""
               title := recipe.label
               image := recipe.image
               readyInMinutes := none
               servings := recipe.yieldServings
               ingredients := (recipe.ingredients.getD []).map edamamIngredient
               instructions := []
               nutrition := recipe.totalNutrients }, calls⟩

/- ---------------------------------------------------------------------
Cache store, recipe repository, and the orchestrator
(`serve` handler, index.ts lines 9-103; `storeRecipe`, lines 227-246).
--------------------------------------------------------------------- -/

/-- One row of the `recipe_cache` table (schema in `src/unnamed/part_001`,
`UNIQUE(search_query, api_source)`). -/
structure CacheEntry where
  search_query : String
  api_source : String
  response_data : Recipe
  expires_at : ℕ
deriving DecidableEq, Repr

/-- One row of the `recipes` table, restricted to the fields the function
writes (schema in `src/unnamed/part_001`, `UNIQUE(external_id, api_source)`). -/
structure RepoRow where
  external_id : String
  api_source : String
  title : String
  image_url : Option String
  ready_in_minutes : Option ℤ
  servings : Option ℚ
  ingredients : List Ingredient
  instructions : List InstructionStep
  nutrition : Option String
deriving DecidableEq, Repr

/-- The state one invocation of the function sees: credentials, the three
upstream oracles, the two tables, the current time, and whether the
repository write throws (the failure `storeRecipe` swallows). -/
structure World where
  env : Env
  spoonacular : SpoonacularUpstream
  edamam : EdamamUpstream
  mealdb : MealDBUpstream
  cache : List CacheEntry
  repo : List RepoRow
  now : ℕ
  repoWriteThrows : Bool

/-- The parsed JSON request body (line 20); `dishName := ""` covers both an
absent and an empty field (both falsy), `apiSource := none` an absent field,
which line 20 defaults to `"spoonacular"`. -/
structure Request where
  dishName : String
  apiSource : Option String

/-- The HTTP response the handler builds: transport status plus the envelope
fields (`success`, `data`, `error`, `source`). -/
structure HttpResponse where
  status : ℕ
  success : Bool
  data : Option Recipe
  error : Option String
  source : Option String
deriving DecidableEq, Repr

/-- The observable outcome of one invocation: the response, the two tables
afterwards, whether the cache select ran, which adapter ran, and the network
calls made. -/
structure HandleOutcome where
  response : HttpResponse
  cache : List CacheEntry
  repo : List RepoRow
  cacheReadAttempted : Bool
  invokedAdapter : Option String
  netCalls : List NetCall
deriving DecidableEq, Repr

/-- The cache key of line 29: `dishName.toLowerCase().trim()`. -/
def cacheKeyOf (dishName : String) : String := jsTrim (jsToLower dishName)

/-- The row filter of the cache select (lines 30-36): both key fields equal
and `expires_at` strictly above the current time. -/
def cacheMatches (q src : String) (now : ℕ) (e : CacheEntry) : Bool :=
  e.search_query == q && e.api_source == src && decide (now < e.expires_at)

/-- The cache select with `.single()` (lines 30-36): the result row exactly
when one row matches; zero or several matching rows put an error in the
result and leave `data` null, which the code treats as a miss. -/
def lookupCache (c : List CacheEntry) (q src : String) (now : ℕ) : Option CacheEntry :=
  match c.filter (cacheMatches q src now) with
  | [e] => some e
  | _ => none

/-- The cache upsert (lines 68-75): replace any row with the same
`(search_query, api_source)` unique key. -/
def cachePut (c : List CacheEntry) (q src : String) (r : Recipe) (exp : ℕ) : List CacheEntry :=
  { search_query := q, api_source := src, response_data := r, expires_at := exp } ::
    c.filter fun e => !(e.search_query == q && e.api_source == src)

/-- The row `storeRecipe` writes into the `recipes` table (lines 229-241). -/
def recipeRow (r : Recipe) (src : String) : RepoRow :=
  { external_id := r.id, api_source := src, title := r.title,
    image_url := r.image, ready_in_minutes := r.readyInMinutes,
    servings := r.servings, ingredients := r.ingredients,
    instructions := r.instructions, nutrition := r.nutrition }

/-- The repository upsert: replace any row with the same
`(external_id, api_source)` unique key. -/
def repoUpsert (repo : List RepoRow) (r : Recipe) (src : String) : List RepoRow :=
  recipeRow r src :: repo.filter fun row => !(row.external_id == r.id && row.api_source == src)

/-- `storeRecipe` (lines 227-246): the upsert inside try/catch — when the
write throws, the error is logged and swallowed and the table is unchanged;
either way the caller continues. -/
def storeRecipe (w : World) (r : Recipe) (src : String) : List RepoRow :=
  if w.repoWriteThrows then w.repo else repoUpsert w.repo r src

/-- The adapter selection chain of lines 53-61; `none` is the
`throw new Error('Invalid API source')` branch. -/
def dispatch (w : World) (apiSource dishName : String) : Option AdapterResult :=
  if apiSource = "spoonacular" then some (fetchFromSpoonacular w.env w.spoonacular dishName)
  else if apiSource = "edamam" then some (fetchFromEdamam w.env w.edamam dishName)
  else if apiSource = "themealdb" then some (fetchFromTheMealDB w.mealdb dishName)
  else none

/-- 24 hours in milliseconds, the cache TTL of lines 65-66. -/
def msPerDay : ℕ := 24 * 60 * 60 * 1000

/-- A success response (lines 40-47 and 81-88): HTTP 200 with
`{success: true, data, source}`. -/
def successResponse (r : Recipe) (origin : String) : HttpResponse :=
  { status := 200, success := true, data := some r, error := none, source := some origin }

/-- The catch-all failure response (lines 90-102): HTTP 500 with
`{success: false, error}`. -/
def errorResponse (msg : String) : HttpResponse :=
  { status := 500, success := false, data := none, error := some msg, source := none }

/-- The `serve` handler (lines 9-103) for a parsed POST body: falsy-dishName
check, cache lookup, adapter dispatch, write-through on success, and the
single catch turning any thrown message into a 500 failure envelope. -/
def handle (w : World) (req : Request) : HandleOutcome :=
  let apiSource := req.apiSource.getD "spoonacular"
  if req.dishName = "" then
    { response := errorResponse "Dish name is required",
      cache := w.cache, repo := w.repo,
      cacheReadAttempted := false, invokedAdapter := none, netCalls := [] }
  else
    let cacheKey := cacheKeyOf req.dishName
    match lookupCache w.cache cacheKey apiSource w.now with
    | some e =>
      { response := successResponse e.response_data "cache",
        cache := w.cache, repo := w.repo,
        cacheReadAttempted := true, invokedAdapter := none, netCalls := [] }
    | none =>
      match dispatch w apiSource req.dishName with
      | none =>
        { response := errorResponse "Invalid API source",
          cache := w.cache, repo := w.repo,
          cacheReadAttempted := true, invokedAdapter := none, netCalls := [] }
      | some ar =>
        match ar.result with
        | .error msg =>
          { response := errorResponse msg,
            cache := w.cache, repo := w.repo,
            cacheReadAttempted := true, invokedAdapter := some apiSource,
            netCalls := ar.calls }
        | .ok recipe =>
          { response := successResponse recipe "api",
            cache := cachePut w.cache cacheKey apiSource recipe (w.now + msPerDay),
            repo := storeRecipe w recipe apiSource,
            cacheReadAttempted := true, invokedAdapter := some apiSource,
            netCalls := ar.calls }

/- ---------------------------------------------------------------------
Derived notions and helper lemmas.
--------------------------------------------------------------------- -/

/-- The unique key of a cache row, per the table schema. -/
def cacheKeyFields (e : CacheEntry) : String × String := (e.search_query, e.api_source)

/-- The invariant the `UNIQUE(search_query, api_source)` constraint of the
`recipe_cache` table enforces: no two rows share their key fields. -/
def CacheKeysUnique (c : List CacheEntry) : Prop := (c.map cacheKeyFields).Nodup

/-- Every cache row carries one of the three recognized source tags; rows
are only ever written by the handler after a successful dispatch, so all
reachable cache states satisfy this. -/
def RecognizedSources (c : List CacheEntry) : Prop :=
  ∀ e ∈ c, e.api_source = "spoonacular" ∨ e.api_source = "edamam" ∨ e.api_source = "themealdb"

instance (c : List CacheEntry) : Decidable (CacheKeysUnique c) :=
  List.nodupDecidable _

instance (c : List CacheEntry) : Decidable (RecognizedSources c) :=
  List.decidableBAll _ c

theorem cacheMatches_keyFields {q src : String} {now : ℕ} {e : CacheEntry}
    (h : cacheMatches q src now e = true) : cacheKeyFields e = (q, src) := by
  simp only [cacheMatches, Bool.and_eq_true, beq_iff_eq, decide_eq_true_eq] at h
  simp [cacheKeyFields, h.1.1, h.1.2]

theorem filter_cacheMatches_eq_singleton {c : List CacheEntry} {q src : String}
    {now : ℕ} {e : CacheEntry} (hu : CacheKeysUnique c) (he : e ∈ c)
    (hm : cacheMatches q src now e = true) :
    c.filter (cacheMatches q src now) = [e] := by
  induction c with
  | nil => cases he
  | cons a t ih =>
    have hu' : CacheKeysUnique t := (List.nodup_cons.mp hu).2
    have ha : cacheKeyFields a ∉ t.map cacheKeyFields := (List.nodup_cons.mp hu).1
    rcases List.mem_cons.mp he with rfl | het
    · have ht : t.filter (cacheMatches q src now) = [] := by
        apply List.filter_eq_nil_iff.mpr
        intro x hx hmx
        exact ha (by
          rw [cacheMatches_keyFields hm, ← cacheMatches_keyFields hmx]
          exact List.mem_map_of_mem cacheKeyFields hx)
      simp [List.filter_cons, hm, ht]
    · have hna : cacheMatches q src now a = false := by
        by_contra hab
        have hat : cacheMatches q src now a = true := by
          cases h : cacheMatches q src now a
          · exact absurd h hab
          · rfl
        exact ha (by
          rw [cacheMatches_keyFields hat, ← cacheMatches_keyFields hm]
          exact List.mem_map_of_mem cacheKeyFields het)
      simp [List.filter_cons, hna, ih hu' het]

theorem filterMap_eq_map_filter {α β : Type} (f : α → Option β) (p : α → Bool)
    (g : α → β) (h : ∀ a, f a = if p a then some (g a) else none) :
    ∀ l : List α, l.filterMap f = (l.filter p).map g := by
  intro l
  induction l with
  | nil => rfl
  | cons a t ih =>
    by_cases hp : p a
    · simp [List.filterMap_cons, List.filter_cons, h a, hp, ih]
    · simp [List.filterMap_cons, List.filter_cons, h a, hp, ih]

/-- The free-source ingredient scan as §4.1 of the spec words it: take the
indices 1..20, keep exactly those whose ingredient field is non-empty after
trimming (no early termination at a gap), and build the slot record for each
kept index, in index order. -/
def mealIngredientsSpec (meal : Meal) : List Ingredient :=
  ((((List.range 20).map (· + 1)).filter fun i =>
      !(jsTrim ((meal.strIngredient i).getD "") == "")).map (mealIngredientAt meal))

theorem jsTrim_empty : jsTrim "" = "" := rfl

theorem parseMealIngredients_eq_spec (meal : Meal) :
    parseMealIngredients meal = mealIngredientsSpec meal := by
  have h : ∀ j : ℕ,
      (match meal.strIngredient (j + 1) with
        | none => none
        | some ingredient =>
          if ingredient ≠ "" ∧ jsTrim ingredient ≠ "" then some (mealIngredientAt meal (j + 1))
          else none) =
        if !(jsTrim ((meal.strIngredient (j + 1)).getD "") == "") then
          some (mealIngredientAt meal (j + 1))
        else none := by
    intro j
    cases hsi : meal.strIngredient (j + 1) with
    | none => simp [jsTrim_empty]
    | some s =>
      by_cases ht : jsTrim s = ""
      · have hcond : ¬(s ≠ "" ∧ jsTrim s ≠ "") := fun hc => hc.2 ht
        simp [hcond, ht]
      · have hs0 : s ≠ "" := fun h0 => ht (h0 ▸ jsTrim_empty)
        simp [hs0, ht]
  calc parseMealIngredients meal
      = ((List.range 20).filter fun j =>
            !(jsTrim ((meal.strIngredient (j + 1)).getD "") == "")).map
          (fun j => mealIngredientAt meal (j + 1)) := by
        unfold parseMealIngredients
        exact filterMap_eq_map_filter _ _ _ h (List.range 20)
    _ = mealIngredientsSpec meal := by
        unfold mealIngredientsSpec
        rw [List.filter_map, List.map_map]
        rfl

/- ---------------------------------------------------------------------
Concrete fixtures used by witnesses and counterexamples.
--------------------------------------------------------------------- -/

/-- An environment with no credentials set. -/
def envEmpty : Env := ⟨none, none, none⟩

/-- An environment with all credentials set. -/
def envFull : Env := ⟨some "sk", some "app-id", some "app-key"⟩

/-- A Spoonacular oracle whose transport always fails. -/
def upSpoonQuiet : SpoonacularUpstream :=
  ⟨fun _ => .error "fetch failed", fun _ => .error "fetch failed"⟩

/-- An Edamam oracle whose transport always fails. -/
def upEdamamQuiet : EdamamUpstream := ⟨fun _ => .error "fetch failed"⟩

/-- A TheMealDB record with one chicken ingredient in slot 1 and every other
slot absent. -/
def mealChicken : Meal :=
  { idMeal := "52940", strMeal := "Brown Stew Chicken",
    strMealThumb := some "thumb.jpg", strInstructions := some "Cook it.",
    strIngredient := fun i => if i = 1 then some "Chicken" else none,
    strMeasure := fun i => if i = 1 then some "500g" else none }

/-- A TheMealDB oracle returning exactly `mealChicken`. -/
def upMealOne : MealDBUpstream := ⟨fun _ => .ok ⟨some [mealChicken]⟩⟩

/-- A TheMealDB oracle returning a null `meals` field. -/
def upMealNone : MealDBUpstream := ⟨fun _ => .ok ⟨none⟩⟩

/-- The normalized recipe `fetchFromTheMealDB` builds from `mealChicken`. -/
def rChicken : Recipe :=
  { id := "52940", title := "Brown Stew Chicken", image := some "thumb.jpg",
    readyInMinutes := none, servings := none,
    ingredients := [⟨"Chicken", .str "500g", "", "500g Chicken"⟩],
    instructions := [⟨1, "Cook it."⟩], nutrition := none }

/-- A world with no credentials, the one-meal TheMealDB oracle, empty
tables, the clock at 1000 ms, and a working repository. -/
def baseWorld : World :=
  { env := envEmpty, spoonacular := upSpoonQuiet, edamam := upEdamamQuiet,
    mealdb := upMealOne, cache := [], repo := [], now := 1000,
    repoWriteThrows := false }

/-- The gap record of §8: ingredient fields present at slots 1 and 5,
whitespace-only at slot 2, absent at 3, 4 and 6..20. -/
def mealGap : Meal :=
  { idMeal := "77", strMeal := "Gap Stew", strMealThumb := none,
    strInstructions := none,
    strIngredient := fun i =>
      if i = 1 then some "Beef" else if i = 2 then some "   "
      else if i = 5 then some "Salt" else none,
    strMeasure := fun i => if i = 1 then some "1kg" else none }

/- ---------------------------------------------------------------------
Claim theorems.
--------------------------------------------------------------------- -/

/-- C6: for every TheMealDB record, the free adapter's scan equals the
spec-side scan — indices 1 through 20, keeping exactly those whose
ingredient field is non-empty after trimming, in index order, with no early
termination — and on the concrete gap record (slots 1 and 5 present, slot 2
whitespace-only, slots 3-4 and 6-20 absent) it yields exactly two
ingredients, in index order. -/
theorem mealdb_scan_indices_1_to_20 :
    (∀ meal : Meal, parseMealIngredients meal = mealIngredientsSpec meal) ∧
    parseMealIngredients mealGap =
      [{ name := "Beef", amount := .str "1kg", unit := "",
         originalString := "1kg Beef" },
       { name := "Salt", amount := .str "", unit := "",
         originalString := "Salt" }] :=
  ⟨parseMealIngredients_eq_spec, by decide⟩

/-- C7: on a free-source record whose first match has
`strIngredient1="Chicken"`, `strMeasure1="500g"`, and all other ingredient
slots empty, the free adapter returns exactly the one-element ingredient
list `[{name:"Chicken", amount:"500g", unit:"", originalString:"500g Chicken"}]`. -/
theorem mealdb_chicken_scenario :
    (fetchFromTheMealDB upMealOne "Chicken Curry").result.toOption.map Recipe.ingredients =
      some [{ name := "Chicken", amount := .str "500g", unit := "",
              originalString := "500g Chicken" }] := by decide

/-- C1 (as amended): for a request with a truthy (non-empty) dishName whose
key `(lowercase(trim(dishName)), apiSource)` has a live cache entry — key
fields matching exactly and `expires_at` strictly above the current time,
the cache holding at most one row per key as its unique constraint
guarantees — the handler returns the success envelope with origin `"cache"`
carrying the cached recipe, invokes no upstream adapter, makes no network
call, and leaves both tables unchanged; and an expired-but-present entry is
treated as a miss. -/
theorem cacheHit_serves_cached_and_expired_is_miss :
    (∀ (w : World) (req : Request) (e : CacheEntry),
        CacheKeysUnique w.cache → req.dishName ≠ "" → e ∈ w.cache →
        e.search_query = cacheKeyOf req.dishName →
        e.api_source = req.apiSource.getD "spoonacular" →
        w.now < e.expires_at →
        handle w req =
          { response := successResponse e.response_data "cache",
            cache := w.cache, repo := w.repo,
            cacheReadAttempted := true, invokedAdapter := none,
            netCalls := [] }) ∧
    (∀ (c : List CacheEntry) (q src : String) (now : ℕ),
        (∀ e ∈ c, cacheKeyFields e = (q, src) → e.expires_at ≤ now) →
        lookupCache c q src now = none) := by
  constructor
  · intro w req e hu hd he hq hs hlive
    have hm : cacheMatches (cacheKeyOf req.dishName) (req.apiSource.getD "spoonacular") w.now e = true := by
      simp [cacheMatches, hq, hs, hlive]
    have hf := filter_cacheMatches_eq_singleton hu he hm
    simp [handle, hd, lookupCache, hf]
  · intro c q src now h
    have hnil : c.filter (cacheMatches q src now) = [] := by
      apply List.filter_eq_nil_iff.mpr
      intro e hec hme
      have hk := cacheMatches_keyFields hme
      have hle := h e hec hk
      simp only [cacheMatches, Bool.and_eq_true, decide_eq_true_eq] at hme
      omega
    simp [lookupCache, hnil]

/-- A world whose cache holds a live entry whose normalized query is the
empty string — the state a whitespace-only dishName request leaves behind. -/
def wEmptyKeyHit : World :=
  { baseWorld with cache := [⟨"", "themealdb", rChicken, 5000⟩] }

/-- C1 counterexample: the request `{dishName: "", apiSource: "themealdb"}`
has key `("", "themealdb")`, and a live entry for exactly that key exists
(5000 > 1000), yet the handler answers with the validation failure instead
of the cache success: the falsy-dishName check runs before the cache
lookup. -/
theorem cacheHit_claim_fails_on_falsy_dishName :
    (⟨"", "themealdb", rChicken, 5000⟩ : CacheEntry) ∈ wEmptyKeyHit.cache ∧
    cacheKeyOf "" = "" ∧ wEmptyKeyHit.now < 5000 ∧
    (handle wEmptyKeyHit ⟨"", some "themealdb"⟩).response =
      errorResponse "Dish name is required" := by decide

/-- A world whose cache holds one live entry for `("chicken curry",
"themealdb")`. -/
def wCacheHit : World :=
  { baseWorld with cache := [⟨"chicken curry", "themealdb", rChicken, 5000⟩] }

/-- Witness for C1 at a concrete request. -/
theorem cacheHit_serves_cached_witness :
    handle wCacheHit ⟨" Chicken CURRY", some "themealdb"⟩ =
      { response := successResponse rChicken "cache",
        cache := wCacheHit.cache, repo := wCacheHit.repo,
        cacheReadAttempted := true, invokedAdapter := none,
        netCalls := [] } := by
  rw [cacheHit_serves_cached_and_expired_is_miss.1 wCacheHit
        ⟨" Chicken CURRY", some "themealdb"⟩
        ⟨"chicken curry", "themealdb", rChicken, 5000⟩
        (by decide) (by decide) (by decide) (by decide) (by decide) (by decide)]

/-- C2: for a request that misses the cache and whose selected adapter
returns a recipe, the handler (with a working repository) upserts a cache
entry keyed by the normalized query and source, with `expires_at` set to
now + 24 hours, overwriting any existing row for that key; it upserts the
recipe into the repository, again overwriting by key; and it returns the
success envelope with origin `"api"` carrying the adapter's recipe. -/
theorem cacheMiss_success_writes_through (w : World) (req : Request)
    (ar : AdapterResult) (r : Recipe)
    (hd : req.dishName ≠ "")
    (hmiss : lookupCache w.cache (cacheKeyOf req.dishName)
        (req.apiSource.getD "spoonacular") w.now = none)
    (hdisp : dispatch w (req.apiSource.getD "spoonacular") req.dishName = some ar)
    (hok : ar.result = .ok r)
    (hrepo : w.repoWriteThrows = false) :
    handle w req =
      { response := successResponse r "api",
        cache :=
          { search_query := cacheKeyOf req.dishName,
            api_source := req.apiSource.getD "spoonacular",
            response_data := r,
            expires_at := w.now + msPerDay } ::
            w.cache.filter fun e =>
              !(e.search_query == cacheKeyOf req.dishName &&
                e.api_source == req.apiSource.getD "spoonacular"),
        repo := recipeRow r (req.apiSource.getD "spoonacular") ::
            w.repo.filter fun row =>
              !(row.external_id == r.id &&
                row.api_source == req.apiSource.getD "spoonacular"),
        cacheReadAttempted := true,
        invokedAdapter := some (req.apiSource.getD "spoonacular"),
        netCalls := ar.calls } := by
  simp [handle, hd, hmiss, hdisp, hok, cachePut, storeRecipe, hrepo, repoUpsert]

/-- Witness for C2: a cold-cache TheMealDB request writes both tables and
answers with origin `"api"`. -/
theorem cacheMiss_success_writes_through_witness :
    handle baseWorld ⟨"Chicken Curry", some "themealdb"⟩ =
      { response := successResponse rChicken "api",
        cache := [{ search_query := "chicken curry", api_source := "themealdb",
                    response_data := rChicken, expires_at := 1000 + msPerDay }],
        repo := [recipeRow rChicken "themealdb"],
        cacheReadAttempted := true, invokedAdapter := some "themealdb",
        netCalls := [.mealdbSearch "Chicken Curry"] } := by
  rw [cacheMiss_success_writes_through baseWorld ⟨"Chicken Curry", some "themealdb"⟩
        (fetchFromTheMealDB upMealOne "Chicken Curry") rChicken
        (by decide) (by decide) (by decide) (by decide) rfl]
  decide

/-- C3: for a request in which the selected adapter fails (not-found,
configuration, or transport/parse error), the handler returns the failure
envelope `{success: false, error: <adapter's message>}` with HTTP status
500, and writes neither the cache nor the repository. -/
theorem adapterFailure_500_no_writes (w : World) (req : Request)
    (ar : AdapterResult) (msg : String)
    (hd : req.dishName ≠ "")
    (hmiss : lookupCache w.cache (cacheKeyOf req.dishName)
        (req.apiSource.getD "spoonacular") w.now = none)
    (hdisp : dispatch w (req.apiSource.getD "spoonacular") req.dishName = some ar)
    (herr : ar.result = .error msg) :
    handle w req =
      { response := { status := 500, success := false, data := none,
                      error := some msg, source := none },
        cache := w.cache, repo := w.repo,
        cacheReadAttempted := true,
        invokedAdapter := some (req.apiSource.getD "spoonacular"),
        netCalls := ar.calls } := by
  simp [handle, hd, hmiss, hdisp, herr, errorResponse]

/-- A world whose TheMealDB oracle reports no matches. -/
def wNotFound : World := { baseWorld with mealdb := upMealNone }

/-- Witness for C3: the upstream reports zero matches and the envelope
carries `"No recipes found"` with status 500, tables untouched. -/
theorem adapterFailure_500_no_writes_witness :
    handle wNotFound ⟨"soup", some "themealdb"⟩ =
      { response := { status := 500, success := false, data := none,
                      error := some "No recipes found", source := none },
        cache := [], repo := [],
        cacheReadAttempted := true, invokedAdapter := some "themealdb",
        netCalls := [.mealdbSearch "soup"] } := by
  rw [adapterFailure_500_no_writes wNotFound ⟨"soup", some "themealdb"⟩
        (fetchFromTheMealDB upMealNone "soup") "No recipes found"
        (by decide) (by decide) (by decide) (by decide)]
  decide

/-- C4 (as amended): for a dishName that is falsy — the empty string, or an
absent field — the handler returns the failure envelope `"Dish name is
required"`, makes no upstream call, and attempts no cache read; but a
whitespace-only dishName is NOT rejected: the check is JavaScript
truthiness, not emptiness after trimming, so any non-empty dishName
proceeds to the cache lookup. -/
theorem falsy_dishName_rejected_whitespace_passes (w : World) (req : Request) :
    (req.dishName = "" →
      handle w req =
        { response := errorResponse "Dish name is required",
          cache := w.cache, repo := w.repo,
          cacheReadAttempted := false, invokedAdapter := none,
          netCalls := [] }) ∧
    (handle w req).cacheReadAttempted = decide (req.dishName ≠ "") := by
  constructor
  · intro hd
    simp [handle, hd]
  · by_cases hd : req.dishName = ""
    · simp [handle, hd]
    · rcases hl : lookupCache w.cache (cacheKeyOf req.dishName)
          (req.apiSource.getD "spoonacular") w.now with _ | e
      · rcases hdp : dispatch w (req.apiSource.getD "spoonacular") req.dishName with _ | ar
        · simp [handle, hd, hl, hdp]
        · rcases hr : ar.result with msg | r
          · simp [handle, hd, hl, hdp, hr]
          · simp [handle, hd, hl, hdp, hr]
      · simp [handle, hd, hl]

/-- C4 counterexample: the whitespace-only dishName `" "` is truthy, so the
request passes validation, the cache read runs (with normalized key `""`),
the upstream is called, and the handler even answers success — where the
claim demands a failure envelope with no cache read and no upstream call. -/
theorem whitespace_dishName_not_rejected :
    jsTrim " " = "" ∧
    (handle baseWorld ⟨" ", some "themealdb"⟩).cacheReadAttempted = true ∧
    (handle baseWorld ⟨" ", some "themealdb"⟩).netCalls = [.mealdbSearch " "] ∧
    (handle baseWorld ⟨" ", some "themealdb"⟩).response.success = true := by decide

/-- Witness for C4 at the empty dishName. -/
theorem falsy_dishName_rejected_witness :
    handle baseWorld ⟨"", none⟩ =
      { response := errorResponse "Dish name is required",
        cache := baseWorld.cache, repo := baseWorld.repo,
        cacheReadAttempted := false, invokedAdapter := none,
        netCalls := [] } :=
  (falsy_dishName_rejected_whitespace_passes baseWorld ⟨"", none⟩).1 rfl

/-- C5: the handler dispatches to exactly the adapter named by `apiSource`
(`"spoonacular"` the premium source, `"edamam"` the nutrition source,
`"themealdb"` the free source), behaves on an absent `apiSource` exactly as
on the premium source, and for every unrecognized value — over any cache
whose rows carry recognized source tags, which is all the handler ever
writes — returns a failure envelope with no adapter invoked and no network
call. -/
theorem dispatch_by_apiSource (w : World) (d src : String) :
    handle w ⟨d, none⟩ = handle w ⟨d, some "spoonacular"⟩ ∧
    dispatch w "spoonacular" d = some (fetchFromSpoonacular w.env w.spoonacular d) ∧
    dispatch w "edamam" d = some (fetchFromEdamam w.env w.edamam d) ∧
    dispatch w "themealdb" d = some (fetchFromTheMealDB w.mealdb d) ∧
    (src ≠ "spoonacular" → src ≠ "edamam" → src ≠ "themealdb" →
      RecognizedSources w.cache →
      (handle w ⟨d, some src⟩).response.success = false ∧
      (handle w ⟨d, some src⟩).response.status = 500 ∧
      (handle w ⟨d, some src⟩).invokedAdapter = none ∧
      (handle w ⟨d, some src⟩).netCalls = []) := by
  refine ⟨rfl, by simp [dispatch], by simp [dispatch], by simp [dispatch], ?_⟩
  intro h1 h2 h3 hrs
  have hdp : dispatch w src d = none := by simp [dispatch, h1, h2, h3]
  by_cases hd : d = ""
  · simp [handle, hd, errorResponse]
  · have hmiss : lookupCache w.cache (cacheKeyOf d) src w.now = none := by
      have hnil : w.cache.filter (cacheMatches (cacheKeyOf d) src w.now) = [] := by
        apply List.filter_eq_nil_iff.mpr
        intro e hec hme
        have hk := cacheMatches_keyFields hme
        have hsrc : e.api_source = src := by
          simpa [cacheKeyFields] using congrArg Prod.snd hk
        rcases hrs e hec with h | h | h
        · rw [hsrc] at h; exact h1 h
        · rw [hsrc] at h; exact h2 h
        · rw [hsrc] at h; exact h3 h
      simp [lookupCache, hnil]
    simp [handle, hd, hmiss, hdp, errorResponse]

/-- A world whose cache holds one recognized-source row. -/
def wRecognized : World :=
  { baseWorld with cache := [⟨"q", "themealdb", rChicken, 5000⟩] }

/-- Witness for C5 at the unrecognized source `"google"`. -/
theorem dispatch_by_apiSource_witness :
    (handle wRecognized ⟨"pasta", some "google"⟩).response.success = false ∧
    (handle wRecognized ⟨"pasta", some "google"⟩).response.status = 500 ∧
    (handle wRecognized ⟨"pasta", some "google"⟩).invokedAdapter = none ∧
    (handle wRecognized ⟨"pasta", some "google"⟩).netCalls = [] :=
  (dispatch_by_apiSource wRecognized "pasta" "google").2.2.2.2
    (by decide) (by decide) (by decide) (by decide)

/-- C8: for every request, a failing repository upsert never changes the
response — envelope fields and HTTP status are identical to the
working-repository run; `storeRecipe` swallows the failure. -/
theorem repoFailure_response_unchanged (w : World) (req : Request) :
    (handle { w with repoWriteThrows := true } req).response =
      (handle { w with repoWriteThrows := false } req).response := by
  rcases w with ⟨env, sp, ed, md, cache, repo, now, rwt⟩
  have hdeq : dispatch ⟨env, sp, ed, md, cache, repo, now, true⟩ =
      dispatch ⟨env, sp, ed, md, cache, repo, now, false⟩ := rfl
  by_cases hd : req.dishName = ""
  · simp [handle, hd]
  · rcases hl : lookupCache cache (cacheKeyOf req.dishName)
        (req.apiSource.getD "spoonacular") now with _ | e
    · rcases hdp : dispatch ⟨env, sp, ed, md, cache, repo, now, false⟩
          (req.apiSource.getD "spoonacular") req.dishName with _ | ar
      · simp [handle, hd, hl, hdeq, hdp]
      · rcases hr : ar.result with msg | r
        · simp [handle, hd, hl, hdeq, hdp, hr]
        · simp [handle, hd, hl, hdeq, hdp, hr]
    · simp [handle, hd, hl]

/-- C9 (as amended): the premium and nutrition sources gate on credentials —
with a falsy `SPOONACULAR_API_KEY` the premium adapter fails with the
configuration error before any network call, and with a falsy
`EDAMAM_APP_ID` or `EDAMAM_APP_KEY` the nutrition adapter does the same —
but the free source requires no credentials at all: `fetchFromTheMealDB`
reads no environment and always performs its search call. -/
theorem credentials_checked_premium_nutrition_only (env : Env)
    (upS : SpoonacularUpstream) (upE : EdamamUpstream) (upM : MealDBUpstream)
    (d : String) :
    (isTruthy env.spoonacularApiKey = false →
      fetchFromSpoonacular env upS d =
        { result := .error "Spoonacular API key not configured", calls := [] }) ∧
    ((isTruthy env.edamamAppId = false ∨ isTruthy env.edamamAppKey = false) →
      fetchFromEdamam env upE d =
        { result := .error "Edamam API credentials not configured", calls := [] }) ∧
    (fetchFromTheMealDB upM d).calls = [NetCall.mealdbSearch d] := by
  refine ⟨?_, ?_, ?_⟩
  · intro h
    simp [fetchFromSpoonacular, h]
  · rintro (h | h) <;> simp [fetchFromEdamam, h]
  · unfold fetchFromTheMealDB
    cases hs : upM.search d with
    | error e => simp
    | ok data =>
      cases hm : data.meals with
      | none => simp [hm]
      | some l =>
        cases l with
        | nil => simp [hm]
        | cons m t => simp [hm]

/-- C9 counterexample: in a world with no credentials whatsoever, the
free-source request performs its network call and succeeds — no
`ConfigurationError` — refuting that every one of the three upstream APIs
requires environment credentials. -/
theorem free_adapter_needs_no_credentials :
    baseWorld.env.spoonacularApiKey = none ∧
    baseWorld.env.edamamAppId = none ∧
    baseWorld.env.edamamAppKey = none ∧
    (handle baseWorld ⟨"soup", some "themealdb"⟩).netCalls = [.mealdbSearch "soup"] ∧
    (handle baseWorld ⟨"soup", some "themealdb"⟩).response.success = true := by decide

/-- Witness for C9 with every credential absent. -/
theorem credentials_checked_witness :
    fetchFromSpoonacular envEmpty upSpoonQuiet "stew" =
      { result := .error "Spoonacular API key not configured", calls := [] } ∧
    fetchFromEdamam envEmpty upEdamamQuiet "stew" =
      { result := .error "Edamam API credentials not configured", calls := [] } :=
  ⟨(credentials_checked_premium_nutrition_only envEmpty upSpoonQuiet upEdamamQuiet upMealOne "stew").1 rfl,
   (credentials_checked_premium_nutrition_only envEmpty upSpoonQuiet upEdamamQuiet upMealOne "stew").2.1 (Or.inl rfl)⟩

/-- C10: for the nutrition-source adapter, the normalized recipe's
ingredients are the first hit's ingredients mapped through the
per-ingredient translation, under which a missing/null or zero quantity
becomes the number 1 — so a zero amount is never preserved. -/
theorem edamam_falsy_quantity_one (env : Env) (up : EdamamUpstream) (d : String)
    (hit : EdamamHit) (rest : List EdamamHit)
    (ha : isTruthy env.edamamAppId = true)
    (hb : isTruthy env.edamamAppKey = true)
    (hs : up.search d = .ok { hits := some (hit :: rest) }) :
    (fetchFromEdamam env up d).result.toOption.map Recipe.ingredients =
      some ((hit.recipe.ingredients.getD []).map edamamIngredient) ∧
    (∀ ing : EdamamIng, ing.quantity = none ∨ ing.quantity = some 0 →
      (edamamIngredient ing).amount = .num 1) ∧
    (∀ ing : EdamamIng, (edamamIngredient ing).amount ≠ .num 0) := by
  refine ⟨?_, ?_, ?_⟩
  · simp [fetchFromEdamam, ha, hb, hs, Except.toOption]
  · rintro ing (h | h) <;> simp [edamamIngredient, h]
  · intro ing
    rcases hq : ing.quantity with _ | q
    · simp [edamamIngredient, hq]
    · by_cases h0 : q = 0
      · simp [edamamIngredient, hq, h0]
      · simp [edamamIngredient, hq, h0]

/-- An Edamam hit with a zero quantity, a missing quantity, and a normal
fractional quantity. -/
def edHitSoup : EdamamHit :=
  ⟨{ uri := "recipe_abc123", label := "Soup", image := none,
     yieldServings := some 2,
     ingredients := some
       [⟨"salt", some 0, "tsp", "a pinch of salt"⟩,
        ⟨"water", none, "cup", "water"⟩,
        ⟨"oil", some (1/2 : ℚ), "tbsp", "half tbsp oil"⟩],
     totalNutrients := none }⟩

/-- An Edamam oracle returning exactly `edHitSoup`. -/
def upEdamamSoup : EdamamUpstream := ⟨fun _ => .ok ⟨some [edHitSoup]⟩⟩

/-- Witness for C10 on a hit with zero, missing, and fractional
quantities. -/
theorem edamam_falsy_quantity_one_witness :
    (fetchFromEdamam envFull upEdamamSoup "soup").result.toOption.map Recipe.ingredients =
      some ((edHitSoup.recipe.ingredients.getD []).map edamamIngredient) :=
  (edamam_falsy_quantity_one envFull upEdamamSoup "soup" edHitSoup []
    rfl rfl rfl).1

/- ---------------------------------------------------------------------
The cache hypotheses used above are invariants of all reachable states:
the empty cache satisfies them and every invocation preserves them.
--------------------------------------------------------------------- -/

theorem dispatch_some_recognized {w : World} {s d : String} {ar : AdapterResult}
    (h : dispatch w s d = some ar) :
    s = "spoonacular" ∨ s = "edamam" ∨ s = "themealdb" := by
  by_cases h1 : s = "spoonacular"
  · exact Or.inl h1
  by_cases h2 : s = "edamam"
  · exact Or.inr (Or.inl h2)
  by_cases h3 : s = "themealdb"
  · exact Or.inr (Or.inr h3)
  simp [dispatch, h1, h2, h3] at h

theorem cachePut_recognized (c : List CacheEntry) (q src : String) (r : Recipe)
    (exp : ℕ) (h : RecognizedSources c)
    (hsrc : src = "spoonacular" ∨ src = "edamam" ∨ src = "themealdb") :
    RecognizedSources (cachePut c q src r exp) := by
  intro e he
  rcases List.mem_cons.mp he with rfl | hf
  · simpa using hsrc
  · exact h e (List.mem_of_mem_filter hf)

theorem cachePut_keysUnique (c : List CacheEntry) (q src : String) (r : Recipe)
    (exp : ℕ) (h : CacheKeysUnique c) :
    CacheKeysUnique (cachePut c q src r exp) := by
  unfold CacheKeysUnique cachePut
  rw [List.map_cons, List.nodup_cons]
  refine ⟨?_, h.sublist ((List.filter_sublist c).map cacheKeyFields)⟩
  intro hmem
  rcases List.mem_map.mp hmem with ⟨e, hef, hkey⟩
  have hp := List.of_mem_filter hef
  simp [cacheKeyFields] at hkey
  simp [hkey.1, hkey.2] at hp

theorem handle_preserves_cache_invariants (w : World) (req : Request)
    (hu : CacheKeysUnique w.cache) (hr : RecognizedSources w.cache) :
    CacheKeysUnique (handle w req).cache ∧ RecognizedSources (handle w req).cache := by
  by_cases hd : req.dishName = ""
  · simpa [handle, hd] using ⟨hu, hr⟩
  · rcases hl : lookupCache w.cache (cacheKeyOf req.dishName)
        (req.apiSource.getD "spoonacular") w.now with _ | e
    · rcases hdp : dispatch w (req.apiSource.getD "spoonacular") req.dishName with _ | ar
      · simpa [handle, hd, hl, hdp] using ⟨hu, hr⟩
      · rcases hres : ar.result with msg | r
        · simpa [handle, hd, hl, hdp, hres] using ⟨hu, hr⟩
        · have hcu := cachePut_keysUnique w.cache (cacheKeyOf req.dishName)
            (req.apiSource.getD "spoonacular") r (w.now + msPerDay) hu
          have hcr := cachePut_recognized w.cache (cacheKeyOf req.dishName)
            (req.apiSource.getD "spoonacular") r (w.now + msPerDay) hr
            (dispatch_some_recognized hdp)
          simpa [handle, hd, hl, hdp, hres] using ⟨hcu, hcr⟩
    · simpa [handle, hd, hl] using ⟨hu, hr⟩
